import Mathlib

/-!
Shallow embedding of the nuescan device-communication core.

The definitions below are translated from the repository's source files:

* `src/hardware/bbd203_protocol.py` — binary APT message codec for the
  BBD203 motor controller (`APTMessage.build_header_only`,
  `APTMessage.build_with_data`, `APTMessage.parse_header`, status bits,
  command builders);
* `src/hardware/bbd203_driver.py` — per-channel state
  (`BBD203Channel.update_from_status`, `BBD203Channel.is_ready`), the
  receive/framing loop (`BBD203Driver._receive_loop`), message dispatch
  with callbacks (`BBD203Driver._process_message`), set-and-verify for
  channel enable (`BBD203Driver._set_and_verify_enable`), and motion
  commands (`move_absolute`, `move_relative`);
* `src/hardware/helios_protocol.py` — ASCII command codec and unit
  conversions (`HeliosCommand.build_command`,
  `HeliosProtocol.frequency_to_period_ns`,
  `HeliosProtocol.period_ns_to_frequency`, validated set-command
  builders);
* `src/hardware/helios_driver.py` — laser driver state, set-and-verify
  (`HeliosDriver._set_and_verify`), setters that cache device state, and
  `restore_factory_settings`.

Bytes are modelled as natural numbers (the theorems carry `< 256` bounds
where the Python `struct` module would reject out-of-range values);
buffers are lists of bytes; Python floats on the values handled here are
modelled as rationals (the quantities involved are far from the
double-precision rounding granularity, see the comments at the
frequency/period conversions); fallible code returns `Except`/`Option`.
I/O effects (serial writes, query responses, verification observations)
are modelled by explicit environment parameters: an `env` function gives,
for each attempt index, whether the write succeeded and what response was
observed, and the driver operations return the list of commands they
handed to the transport.
-/

namespace BBD203

/-- Status bit masks, from `StatusBits` in `src/hardware/bbd203_protocol.py`. -/
def HOMING : ℕ := 0x00000200

def HOMED : ℕ := 0x00000400

def MOTION_ERROR : ℕ := 0x00004000

def MOTOR_ENABLED : ℕ := 0x80000000

def IN_MOTION_FORWARD : ℕ := 0x00000010

def IN_MOTION_REVERSE : ℕ := 0x00000020

def JOGGING_FORWARD : ℕ := 0x00000040

def JOGGING_REVERSE : ℕ := 0x00000080

/-- `APTMessage.build_header_only`: `struct.pack('<HBBBB', msg_id, param1,
param2, dest, source)`.  `struct.pack` raises on out-of-range values, so the
theorems below use this only under `msg_id < 2^16` and byte bounds. -/
def build_header_only (msg_id param1 param2 dest source : ℕ) : List ℕ :=
  [msg_id % 256, msg_id / 256 % 256, param1 % 256, param2 % 256,
   dest % 256, source % 256]

/-- `APTMessage.build_with_data`: `struct.pack('<HHBB', msg_id, data_len,
dest, source) + data`. -/
def build_with_data (msg_id dest : ℕ) (data : List ℕ) (source : ℕ) : List ℕ :=
  [msg_id % 256, msg_id / 256 % 256, data.length % 256, data.length / 256 % 256,
   dest % 256, source % 256] ++ data

/-- `APTMessage.parse_header`: fails (`ValueError`) when fewer than 6 bytes
are supplied; otherwise returns `(msg_id, data_len, dest, source)` with
`data_len = (byte3 << 8) | byte2`. -/
def parse_header (data : List ℕ) : Option (ℕ × ℕ × ℕ × ℕ) :=
  if data.length < 6 then none
  else some (data.getD 0 0 + 256 * data.getD 1 0,
             data.getD 2 0 + 256 * data.getD 3 0,
             data.getD 4 0,
             data.getD 5 0)

/-- Per-channel state, from `BBD203Channel.__init__` in
`src/hardware/bbd203_driver.py`. -/
structure Channel where
  channel_num : ℕ
  enabled : Bool
  homed : Bool
  position_mm : ℚ
  encoder_count : ℕ
  status_bits : ℕ
  moving : Bool
  homing : Bool
  error : Bool
deriving DecidableEq

/-- A freshly constructed channel: all flags false, all counters zero. -/
def initChannel (n : ℕ) : Channel :=
  { channel_num := n, enabled := false, homed := false, position_mm := 0,
    encoder_count := 0, status_bits := 0, moving := false, homing := false,
    error := false }

/-- `BBD203Channel.update_from_status`.  `protocol.apt_to_position` divides
the raw position by the encoder counts-per-mm. -/
def update_from_status (ch : Channel) (position encoder status enc_cnt : ℕ) :
    Channel :=
  { ch with
    position_mm := (position : ℚ) / (enc_cnt : ℚ)
    encoder_count := encoder
    status_bits := status
    homed := decide (status &&& HOMED ≠ 0)
    homing := decide (status &&& HOMING ≠ 0)
    enabled := decide (status &&& MOTOR_ENABLED ≠ 0)
    error := decide (status &&& MOTION_ERROR ≠ 0)
    moving := decide (status &&&
      (IN_MOTION_FORWARD ||| IN_MOTION_REVERSE |||
       JOGGING_FORWARD ||| JOGGING_REVERSE ||| HOMING) ≠ 0) }

/-- `BBD203Channel.is_ready`: `enabled and homed and not error`. -/
def Channel.is_ready (ch : Channel) : Bool :=
  ch.enabled && ch.homed && !ch.error

/-- Total length of the frame announced by a header whose combined length
field is `data_len`, per `BBD203Driver._receive_loop`: `data_len == 0 or
data_len > 255` means header-only (6 bytes), otherwise `6 + data_len`. -/
def msgLenOfHeader (data_len : ℕ) : ℕ :=
  if data_len = 0 ∨ 255 < data_len then 6 else 6 + data_len

/-- The inner `while len(buffer) >= 6` extraction loop of
`BBD203Driver._receive_loop`, as a pure function from the buffer to the
list of extracted (dispatched) messages and the remaining buffer.  The
loop consumes at least 6 bytes per iteration, so `buf.length` is enough
fuel; `extractLoop` below instantiates the fuel. -/
def extractLoopAux : ℕ → List ℕ → List (List ℕ) × List ℕ
  | 0, buf => ([], buf)
  | fuel + 1, buf =>
    match parse_header buf with
    | none => ([], buf)
    | some (_, data_len, _, _) =>
      let msg_len := msgLenOfHeader data_len
      if buf.length < msg_len then ([], buf)
      else
        let r := extractLoopAux fuel (buf.drop msg_len)
        (buf.take msg_len :: r.1, r.2)

/-- One pass of the extraction loop over the current buffer. -/
def extractLoop (buf : List ℕ) : List (List ℕ) × List ℕ :=
  extractLoopAux buf.length buf

/-- The receive pump fed a sequence of chunks: each arriving chunk is
appended to the buffer (`buffer.extend(data)`) and the extraction loop is
run; returns all dispatched messages and the final buffer. -/
def feedChunks : List (List ℕ) → List ℕ → List (List ℕ) × List ℕ
  | [], buf => ([], buf)
  | c :: cs, buf =>
    let r := extractLoop (buf ++ c)
    let r2 := feedChunks cs r.2
    (r.1 ++ r2.1, r2.2)

/-- Feed chunks to a pump that starts with an empty buffer. -/
def feed (chunks : List (List ℕ)) : List (List ℕ) × List ℕ :=
  feedChunks chunks []

/-- A byte sequence that the framing loop recognises as exactly one
complete message: at least 6 bytes, and the length announced by its
header equals its actual length. -/
def WellFramed (m : List ℕ) : Prop :=
  6 ≤ m.length ∧ m.length = msgLenOfHeader (m.getD 2 0 + 256 * m.getD 3 0)

/-- The callback loop of `BBD203Driver._process_message` for a completion
event.  A callback is abstracted by whether it raises; the result is the
invocation trace: `(callback index, argument)` pairs, in invocation order.
In the source the `for callback in ...: callback(channel_num)` loop sits
inside the single `try` of `_process_message`, so an exception raised by
one callback aborts the loop (the remaining callbacks are skipped) and is
caught by the surrounding `except`. -/
def runCallbacksFrom (channel_num : ℕ) : ℕ → List Bool → List (ℕ × ℕ)
  | _, [] => []
  | i, raises :: rest =>
    (i, channel_num) ::
      (if raises then [] else runCallbacksFrom channel_num (i + 1) rest)

/-- The `MGMSG_MOT_MOVE_COMPLETED` branch of
`BBD203Driver._process_message`: recover the channel from the destination
byte (`dest - 0x20`), clear `moving`, then run the registered
move-complete callbacks for that channel.  `move_cbs ch` is the list of
registered callbacks (in registration order) for channel `ch`, each
abstracted by whether it raises.  Returns the updated channel map and the
callback invocation trace. -/
def processMoveCompleted (move_cbs : ℕ → List Bool) (chs : ℕ → Channel)
    (dest : ℕ) : (ℕ → Channel) × List (ℕ × ℕ) :=
  let channel_num := dest - 0x20
  if channel_num = 1 ∨ channel_num = 2 ∨ channel_num = 3 then
    (fun m => if m = channel_num then { chs m with moving := false } else chs m,
     runCallbacksFrom channel_num 0 (move_cbs channel_num))
  else (chs, [])

end BBD203

namespace Helios

/-- Truncation toward zero, the semantics of Python's `int()` on a number.
All uses below are on non-negative values, where it agrees with `⌊·⌋`. -/
def intTrunc (q : ℚ) : ℤ :=
  if q < 0 then ⌈q⌉ else ⌊q⌋

/-- `HeliosProtocol.frequency_to_period_ns`: raises `ValueError` on
`freq_hz <= 0`, otherwise returns `int(1e9 / freq_hz)`.

The Python division is on IEEE doubles; this embedding computes the exact
rational quotient.  For the integer frequencies the claims quantify over
(`f ∈ [16667, 125000]`) the quotient's fractional part is at least
`1/f ≥ 8·10⁻⁶` away from 0 and 1 while the double is within `≈ 5·10⁻¹²`
of the exact quotient, so the truncation of the double equals the
truncation of the rational. -/
def frequency_to_period_ns (freq_hz : ℚ) : Except String ℤ :=
  if freq_hz ≤ 0 then .error "Frequency must be positive"
  else .ok (intTrunc (10 ^ 9 / freq_hz))

/-- `HeliosProtocol.period_ns_to_frequency`: raises `ValueError` on
`period_ns <= 0`, otherwise returns `1e9 / period_ns`. -/
def period_ns_to_frequency (period_ns : ℤ) : Except String ℚ :=
  if period_ns ≤ 0 then .error "Period must be positive"
  else .ok (10 ^ 9 / (period_ns : ℚ))

/-- `HeliosCommand.build_command`: `f"{command} {value}\r"` when a value is
given, `f"{command}\r"` otherwise.  Only integer-valued commands are
modelled here (LDO/LDG/LDF/LDS all format integers). -/
def build_command (command : String) (value : Option ℤ) : String :=
  match value with
  | some v => command ++ " " ++ toString v ++ "\r"
  | none => command ++ "\r"

/-- `HeliosProtocol.cmd_set_laser_enable`. -/
def cmd_set_laser_enable (enabled : Bool) : String :=
  build_command "LDO" (some (if enabled then 1 else 0))

/-- `HeliosProtocol.cmd_query_laser_enable`. -/
def cmd_query_laser_enable : String :=
  build_command "LDO" none

/-- `HeliosProtocol.cmd_set_pulse_mode`: raises on a value that is not one
of `SINGLE_PULSE = 1`, `GATING = 4`, `CONTINUOUS_PULSING = 14`. -/
def cmd_set_pulse_mode (mode : ℕ) : Except String String :=
  if mode = 1 ∨ mode = 4 ∨ mode = 14 then
    .ok (build_command "LDG" (some (mode : ℤ)))
  else .error "Invalid pulse mode"

/-- `HeliosProtocol.cmd_query_pulse_mode`. -/
def cmd_query_pulse_mode : String :=
  build_command "LDG" none

/-- `HeliosProtocol.cmd_set_frequency_hz`: converts the frequency to a
period, raises `ValueError` when the period is outside
`RANGE_LDF = (8000, 60000)` ns, and only then builds the `LDF` command. -/
def cmd_set_frequency_hz (freq_hz : ℚ) : Except String String := do
  let period_ns ← frequency_to_period_ns freq_hz
  if 8000 ≤ period_ns ∧ period_ns ≤ 60000 then
    pure (build_command "LDF" (some period_ns))
  else .error "Frequency results in period outside valid range"

/-- `HeliosProtocol.cmd_query_frequency`. -/
def cmd_query_frequency : String :=
  build_command "LDF" none

/-- `HeliosProtocol.cmd_set_current_ma`: raises `ValueError` when the
current is outside `RANGE_LDS = (0, 7000)` mA, otherwise builds the `LDS`
command with `int(current_ma)`. -/
def cmd_set_current_ma (current_ma : ℚ) : Except String String :=
  if 0 ≤ current_ma ∧ current_ma ≤ 7000 then
    .ok (build_command "LDS" (some (intTrunc current_ma)))
  else .error "Current outside valid range"

/-- `HeliosProtocol.cmd_query_current`. -/
def cmd_query_current : String :=
  build_command "LDS" none

/-- `HeliosProtocol.cmd_restore_factory`. -/
def cmd_restore_factory : String :=
  build_command "HPR" none

/-- The truthiness-and-equality test of `HeliosDriver._set_and_verify`:
`if response and response == expected_value`.  A `None` response (query
failed / timed out) and the empty string are falsy. -/
def respMatches (response : Option String) (expected : String) : Bool :=
  match response with
  | some r => !(r == "") && (r == expected)
  | none => false

/-- One observation per attempt of a set-and-verify loop: whether the set
command's write succeeded, and the response observed by the verify query. -/
def SVEnv : Type := ℕ → Bool × Option String

/-- `HeliosDriver._set_and_verify`: up to `retries` attempts, starting at
attempt index `i`.  Each attempt sends the set command (a failed write
skips to the next attempt, per `if not self._send_command(set_cmd):
continue`), then queries; it succeeds as soon as the response is truthy
and equals the expected string.  Returns the success flag together with
the list of commands handed to the transport, in order. -/
def set_and_verify (env : SVEnv) (set_cmd query_cmd expected : String) :
    ℕ → ℕ → Bool × List String
  | 0, _ => (false, [])
  | retries + 1, i =>
    let (sendOk, response) := env i
    if sendOk then
      if respMatches response expected then (true, [set_cmd, query_cmd])
      else
        let r := set_and_verify env set_cmd query_cmd expected retries (i + 1)
        (r.1, set_cmd :: query_cmd :: r.2)
    else set_and_verify env set_cmd query_cmd expected retries (i + 1)

/-- Cached laser state, from `HeliosDriver.__init__` (the fields the
modelled setters touch). -/
structure LaserState where
  laser_enabled : Bool
  pulse_mode : ℕ
  frequency_hz : ℚ
  current_ma : ℚ
deriving DecidableEq

/-- The state a fresh `HeliosDriver` caches before any query. -/
def initLaserState : LaserState :=
  { laser_enabled := false, pulse_mode := 14, frequency_hz := 10000,
    current_ma := 500 }

/-- `HeliosDriver.set_laser_enable`: set-and-verify `LDO`; the cached
`_laser_enabled` is assigned only on verified success.  Returns
`(result, state, transport writes)`. -/
def set_laser_enable (env : SVEnv) (st : LaserState) (enabled : Bool) :
    Bool × LaserState × List String :=
  let expected := if enabled then "1" else "0"
  let sv := set_and_verify env (cmd_set_laser_enable enabled)
    cmd_query_laser_enable expected 3 0
  if sv.1 then (true, { st with laser_enabled := enabled }, sv.2)
  else (false, st, sv.2)

/-- `HeliosDriver.set_pulse_mode`: the builder's `ValueError` propagates to
the caller (this call is not inside a `try`); otherwise set-and-verify
`LDG` against `str(mode.value)` and cache only on success. -/
def set_pulse_mode (env : SVEnv) (st : LaserState) (mode : ℕ) :
    Except String (Bool × LaserState × List String) := do
  let cmd ← cmd_set_pulse_mode mode
  let sv := set_and_verify env cmd cmd_query_pulse_mode (toString mode) 3 0
  if sv.1 then pure (true, { st with pulse_mode := mode }, sv.2)
  else pure (false, st, sv.2)

/-- `HeliosDriver.set_frequency_hz`: builds the `LDF` command inside a
`try` — a `ValueError` (non-positive frequency or period out of range) is
caught and the method returns `False` having sent nothing and changed
nothing; otherwise set-and-verify against `str(period_ns)` and cache
`_frequency_hz` only on success. -/
def set_frequency_hz (env : SVEnv) (st : LaserState) (freq_hz : ℚ) :
    Bool × LaserState × List String :=
  match cmd_set_frequency_hz freq_hz, frequency_to_period_ns freq_hz with
  | .ok cmd, .ok period_ns =>
    let sv := set_and_verify env cmd cmd_query_frequency (toString period_ns) 3 0
    if sv.1 then (true, { st with frequency_hz := freq_hz }, sv.2)
    else (false, st, sv.2)
  | _, _ => (false, st, [])

/-- `HeliosDriver.set_current_ma`: same `try` pattern as
`set_frequency_hz`, verifying against `str(int(current_ma))`. -/
def set_current_ma (env : SVEnv) (st : LaserState) (current_ma : ℚ) :
    Bool × LaserState × List String :=
  match cmd_set_current_ma current_ma with
  | .ok cmd =>
    let sv := set_and_verify env cmd cmd_query_current
      (toString (intTrunc current_ma)) 3 0
    if sv.1 then (true, { st with current_ma := current_ma }, sv.2)
    else (false, st, sv.2)
  | .error _ => (false, st, [])

/-- `HeliosDriver.restore_factory_settings`: refuses (returns `False`,
sends nothing) while the cached `_laser_enabled` flag is true; otherwise
hands the `HPR` command to the transport, returning the write's success.
`send_ok` is whether `self._send_command` succeeds.  The cached state is
never modified.  Returns `(result, transport writes)`. -/
def restore_factory_settings (send_ok : Bool) (st : LaserState) :
    Bool × List String :=
  if st.laser_enabled then (false, [])
  else (send_ok, [cmd_restore_factory])

end Helios

namespace BBD203

/-- Little-endian 4-byte encoding of a 32-bit value (`struct.pack('<I', n)`
or, after reduction mod `2^32`, the two's-complement `'<i'`). -/
def le32 (n : ℕ) : List ℕ :=
  [n % 256, n / 256 % 256, n / 256 ^ 2 % 256, n / 256 ^ 3 % 256]

/-- `APTProtocol.position_to_apt`: `int(pos_mm * self.enc_cnt)` (Python
`int()` truncates toward zero). -/
def position_to_apt (enc_cnt : ℕ) (pos_mm : ℚ) : ℤ :=
  Helios.intTrunc (pos_mm * enc_cnt)

/-- `APTProtocol.cmd_move_absolute`: destination `CHANNEL_1 + (channel-1)`,
payload `struct.pack('<HI', 0x0001, pos_apt)`.  (`struct.pack` requires
`0 ≤ pos_apt < 2^32`; the byte image is taken mod `2^32`.) -/
def cmd_move_absolute (enc_cnt channel : ℕ) (position_mm : ℚ) : List ℕ :=
  let pos_apt := position_to_apt enc_cnt position_mm
  build_with_data 0x0453 (0x21 + (channel - 1))
    ([1, 0] ++ le32 (pos_apt % 2 ^ 32).toNat) 0x01

/-- `APTProtocol.cmd_move_relative`: payload `struct.pack('<Hi', 0x0001,
dist_apt)` (signed, two's complement). -/
def cmd_move_relative (enc_cnt channel : ℕ) (distance_mm : ℚ) : List ℕ :=
  let dist_apt := position_to_apt enc_cnt distance_mm
  build_with_data 0x0448 (0x21 + (channel - 1))
    ([1, 0] ++ le32 (dist_apt % 2 ^ 32).toNat) 0x01

/-- One observation per attempt of `BBD203Driver._set_and_verify_enable`:
whether the enable command's write succeeded, and the channel's `enabled`
flag as observed after the status-update round trip. -/
def EnableEnv : Type := ℕ → Bool × Bool

/-- `BBD203Driver._set_and_verify_enable`: up to `retries` attempts; a
failed write skips to the next attempt, otherwise the attempt succeeds
when the observed `channels[channel].enabled` equals the requested state. -/
def set_and_verify_enable (env : EnableEnv) (enable : Bool) :
    ℕ → ℕ → Bool
  | 0, _ => false
  | retries + 1, i =>
    let (sendOk, observed) := env i
    if sendOk && (observed == enable) then true
    else set_and_verify_enable env enable retries (i + 1)

/-- `BBD203Driver.move_absolute` with `wait=False` (the claims do not
involve the blocking wait, which polls wall-clock time).  `send_ok` is the
outcome of `self._send_command`.  Checks the channel number, then
`is_ready`; only then marks the channel moving and hands the move command
to the transport.  Returns `(result, channels, transport writes)`. -/
def move_absolute (send_ok : Bool) (enc_cnt : ℕ) (chs : ℕ → Channel)
    (channel : ℕ) (position_mm : ℚ) :
    Bool × (ℕ → Channel) × List (List ℕ) :=
  if channel = 1 ∨ channel = 2 ∨ channel = 3 then
    if (chs channel).is_ready then
      (send_ok,
       fun m => if m = channel then { chs m with moving := true } else chs m,
       [cmd_move_absolute enc_cnt channel position_mm])
    else (false, chs, [])
  else (false, chs, [])

/-- `BBD203Driver.move_relative` with `wait=False`; same structure as
`move_absolute`. -/
def move_relative (send_ok : Bool) (enc_cnt : ℕ) (chs : ℕ → Channel)
    (channel : ℕ) (distance_mm : ℚ) :
    Bool × (ℕ → Channel) × List (List ℕ) :=
  if channel = 1 ∨ channel = 2 ∨ channel = 3 then
    if (chs channel).is_ready then
      (send_ok,
       fun m => if m = channel then { chs m with moving := true } else chs m,
       [cmd_move_relative enc_cnt channel distance_mm])
    else (false, chs, [])
  else (false, chs, [])

end BBD203

/-! ### Helper lemmas (shared) -/

theorem nat_or_eq_zero (a b : ℕ) : a ||| b = 0 ↔ a = 0 ∧ b = 0 := by
  constructor
  · intro h
    have ht : ∀ i, a.testBit i = false ∧ b.testBit i = false := by
      intro i
      have := congrArg (fun n => n.testBit i) h
      simpa [Nat.testBit_or] using this
    exact ⟨Nat.eq_of_testBit_eq (by intro i; simp [(ht i).1]),
           Nat.eq_of_testBit_eq (by intro i; simp [(ht i).2])⟩
  · rintro ⟨rfl, rfl⟩; rfl

theorem and_pow_two_ne (x i : ℕ) : x &&& 2 ^ i ≠ 0 ↔ x.testBit i = true := by
  rw [Nat.and_two_pow]
  cases h : x.testBit i <;> simp [h]

theorem moving_mask_testBit (s : ℕ) :
    s &&& (BBD203.IN_MOTION_FORWARD ||| BBD203.IN_MOTION_REVERSE |||
           BBD203.JOGGING_FORWARD ||| BBD203.JOGGING_REVERSE |||
           BBD203.HOMING) ≠ 0 ↔
      (s.testBit 4 = true ∨ s.testBit 5 = true ∨ s.testBit 6 = true ∨
       s.testBit 7 = true ∨ s.testBit 9 = true) := by
  have h16 : BBD203.IN_MOTION_FORWARD = 2 ^ 4 := by norm_num [BBD203.IN_MOTION_FORWARD]
  have h32 : BBD203.IN_MOTION_REVERSE = 2 ^ 5 := by norm_num [BBD203.IN_MOTION_REVERSE]
  have h64 : BBD203.JOGGING_FORWARD = 2 ^ 6 := by norm_num [BBD203.JOGGING_FORWARD]
  have h128 : BBD203.JOGGING_REVERSE = 2 ^ 7 := by norm_num [BBD203.JOGGING_REVERSE]
  have h512 : BBD203.HOMING = 2 ^ 9 := by norm_num [BBD203.HOMING]
  rw [h16, h32, h64, h128, h512]
  rw [Nat.and_or_distrib_left, Nat.and_or_distrib_left, Nat.and_or_distrib_left,
      Nat.and_or_distrib_left]
  rw [Ne, nat_or_eq_zero, nat_or_eq_zero, nat_or_eq_zero, nat_or_eq_zero]
  rw [not_and_or, not_and_or, not_and_or, not_and_or]
  rw [← Ne, ← Ne, ← Ne, ← Ne, ← Ne]
  rw [and_pow_two_ne, and_pow_two_ne, and_pow_two_ne, and_pow_two_ne, and_pow_two_ne]
  tauto

/-! ### Claims -/

/-- C4: for every 32-bit status word applied via `update_from_status`, the
`moving` flag is true iff any of the in-motion-forward (bit 4),
in-motion-reverse (bit 5), jogging-forward (bit 6), jogging-reverse
(bit 7) or homing (bit 9) bits is set; `homed`, `homing`, `enabled`,
`error` come from bits 10, 9, 31, 14 respectively; the channel is ready
iff enabled and homed and not error; and a status word with exactly
{HOMED, MOTOR_ENABLED} set yields homed, enabled, not moving, no error,
ready. -/
theorem C4_status_word_decoding (ch : BBD203.Channel) (pos enc status : ℕ)
    (_h32 : status < 2 ^ 32) :
    ((BBD203.update_from_status ch pos enc status 20000).moving = true ↔
      (status.testBit 4 = true ∨ status.testBit 5 = true ∨
       status.testBit 6 = true ∨ status.testBit 7 = true ∨
       status.testBit 9 = true)) ∧
    ((BBD203.update_from_status ch pos enc status 20000).homed = true ↔
      status.testBit 10 = true) ∧
    ((BBD203.update_from_status ch pos enc status 20000).homing = true ↔
      status.testBit 9 = true) ∧
    ((BBD203.update_from_status ch pos enc status 20000).enabled = true ↔
      status.testBit 31 = true) ∧
    ((BBD203.update_from_status ch pos enc status 20000).error = true ↔
      status.testBit 14 = true) ∧
    ((BBD203.update_from_status ch pos enc status 20000).is_ready = true ↔
      ((BBD203.update_from_status ch pos enc status 20000).enabled = true ∧
       (BBD203.update_from_status ch pos enc status 20000).homed = true ∧
       (BBD203.update_from_status ch pos enc status 20000).error = false)) ∧
    ((BBD203.update_from_status ch pos enc
        (BBD203.HOMED ||| BBD203.MOTOR_ENABLED) 20000).homed = true ∧
     (BBD203.update_from_status ch pos enc
        (BBD203.HOMED ||| BBD203.MOTOR_ENABLED) 20000).enabled = true ∧
     (BBD203.update_from_status ch pos enc
        (BBD203.HOMED ||| BBD203.MOTOR_ENABLED) 20000).moving = false ∧
     (BBD203.update_from_status ch pos enc
        (BBD203.HOMED ||| BBD203.MOTOR_ENABLED) 20000).error = false ∧
     (BBD203.update_from_status ch pos enc
        (BBD203.HOMED ||| BBD203.MOTOR_ENABLED) 20000).is_ready = true) := by
  refine ⟨?_, ?_, ?_, ?_, ?_, ?_, ?_⟩
  · simp only [BBD203.update_from_status, decide_eq_true_iff]
    exact moving_mask_testBit status
  · simp only [BBD203.update_from_status, decide_eq_true_iff]
    have : BBD203.HOMED = 2 ^ 10 := by norm_num [BBD203.HOMED]
    rw [this, and_pow_two_ne]
  · simp only [BBD203.update_from_status, decide_eq_true_iff]
    have : BBD203.HOMING = 2 ^ 9 := by norm_num [BBD203.HOMING]
    rw [this, and_pow_two_ne]
  · simp only [BBD203.update_from_status, decide_eq_true_iff]
    have : BBD203.MOTOR_ENABLED = 2 ^ 31 := by norm_num [BBD203.MOTOR_ENABLED]
    rw [this, and_pow_two_ne]
  · simp only [BBD203.update_from_status, decide_eq_true_iff]
    have : BBD203.MOTION_ERROR = 2 ^ 14 := by norm_num [BBD203.MOTION_ERROR]
    rw [this, and_pow_two_ne]
  · simp only [BBD203.Channel.is_ready]
    cases h1 : (BBD203.update_from_status ch pos enc status 20000).enabled <;>
      cases h2 : (BBD203.update_from_status ch pos enc status 20000).homed <;>
      cases h3 : (BBD203.update_from_status ch pos enc status 20000).error <;>
      simp
  · refine ⟨?_, ?_, ?_, ?_, ?_⟩ <;>
      simp only [BBD203.update_from_status, BBD203.Channel.is_ready,
        BBD203.HOMED, BBD203.MOTOR_ENABLED, BBD203.HOMING, BBD203.MOTION_ERROR,
        BBD203.IN_MOTION_FORWARD, BBD203.IN_MOTION_REVERSE,
        BBD203.JOGGING_FORWARD, BBD203.JOGGING_REVERSE] <;> decide

/-- C4 witness: the theorem applied to a fresh channel and the status word
`0x80000400` (= {HOMED, MOTOR_ENABLED}). -/
theorem C4_status_word_decoding_witness :
    (BBD203.update_from_status (BBD203.initChannel 1) 0 0 0x80000400
      20000).moving = false ∧
    (BBD203.update_from_status (BBD203.initChannel 1) 0 0 0x80000400
      20000).is_ready = true := by
  have h := C4_status_word_decoding (BBD203.initChannel 1) 0 0 0x80000400
    (by norm_num)
  have hs : BBD203.HOMED ||| BBD203.MOTOR_ENABLED = 0x80000400 := by decide
  obtain ⟨-, -, -, -, -, -, -, -, hmov, -, hready⟩ := h
  rw [hs] at hmov hready
  exact ⟨hmov, hready⟩

/-- C5: parsing the 6-byte result of `build_header_only` recovers the same
message id, the same two parameters (combined little-endian into the
length field, from which each byte is recoverable), the same destination
and the same source. -/
theorem C5_header_only_roundtrip (msg_id p1 p2 dest src : ℕ)
    (hid : msg_id < 65536) (hp1 : p1 < 256) (hp2 : p2 < 256)
    (hdest : dest < 256) (hsrc : src < 256) :
    BBD203.parse_header (BBD203.build_header_only msg_id p1 p2 dest src) =
      some (msg_id, p1 + 256 * p2, dest, src) ∧
    (p1 + 256 * p2) % 256 = p1 ∧ (p1 + 256 * p2) / 256 = p2 := by
  refine ⟨?_, by omega, by omega⟩
  simp only [BBD203.parse_header, BBD203.build_header_only, List.getD,
    List.length_cons, List.length_nil]
  norm_num
  omega

/-- C5 witness: the round trip at `msg_id = 0x0464`, params `(1, 2)`,
`dest = 0x50`, `source = 0x01`. -/
theorem C5_header_only_roundtrip_witness :
    BBD203.parse_header (BBD203.build_header_only 0x0464 1 2 0x50 0x01) =
      some (0x0464, 1 + 256 * 2, 0x50, 0x01) ∧
    (1 + 256 * 2) % 256 = 1 ∧ (1 + 256 * 2) / 256 = 2 :=
  C5_header_only_roundtrip 0x0464 1 2 0x50 0x01 (by norm_num) (by norm_num)
    (by norm_num) (by norm_num) (by norm_num)

/-- C3 counterexample: at `f = 24000` Hz the code computes
`int(1e9 / 24000) = 41666` (truncation), while
`round(1e9 / 24000) = 41667`, so `frequency_to_period_ns` does not compute
`round(1e9 / f)`. -/
theorem C3_truncation_counterexample :
    Helios.frequency_to_period_ns 24000 = .ok 41666 ∧
    round ((10 ^ 9 : ℚ) / 24000) = 41667 ∧ (41666 : ℤ) ≠ 41667 := by
  have hfl : ⌊(10 ^ 9 : ℚ) / 24000⌋ = 41666 := by
    rw [Int.floor_eq_iff]
    norm_num
  refine ⟨?_, ?_, by norm_num⟩
  · simp only [Helios.frequency_to_period_ns, Helios.intTrunc]
    rw [if_neg (by norm_num), if_neg (by norm_num), hfl]
  · rw [round_eq, Int.floor_eq_iff]
    norm_num

/-- C3 (amended): for every integer frequency `f ∈ [16667, 125000]` Hz,
`frequency_to_period_ns` computes the truncation `⌊1e9 / f⌋` (not the
rounding), and `period_ns_to_frequency` applied to that result yields a
frequency `fr ≥ f` whose exact period `1e9 / fr` differs from the true
period `1e9 / f` by less than one nanosecond (the rounding tolerance of
the integer nanosecond representation); both conversions fail on
non-positive input. -/
theorem C3_frequency_period_conversion :
    (∀ f : ℕ, 16667 ≤ f → f ≤ 125000 →
      Helios.frequency_to_period_ns (f : ℚ) = .ok ⌊(10 ^ 9 : ℚ) / (f : ℚ)⌋ ∧
      Helios.period_ns_to_frequency ⌊(10 ^ 9 : ℚ) / (f : ℚ)⌋ =
        .ok ((10 ^ 9 : ℚ) / (⌊(10 ^ 9 : ℚ) / (f : ℚ)⌋ : ℚ)) ∧
      (f : ℚ) ≤ (10 ^ 9 : ℚ) / (⌊(10 ^ 9 : ℚ) / (f : ℚ)⌋ : ℚ) ∧
      (10 ^ 9 : ℚ) / (f : ℚ) -
        (10 ^ 9 : ℚ) / ((10 ^ 9 : ℚ) / (⌊(10 ^ 9 : ℚ) / (f : ℚ)⌋ : ℚ)) < 1) ∧
    (∀ q : ℚ, q ≤ 0 →
      Helios.frequency_to_period_ns q = .error "Frequency must be positive") ∧
    (∀ n : ℤ, n ≤ 0 →
      Helios.period_ns_to_frequency n = .error "Period must be positive") := by
  refine ⟨?_, ?_, ?_⟩
  · intro f h1 h2
    have hfpos : (0 : ℚ) < (f : ℚ) := by
      have : (0 : ℕ) < f := by omega
      exact_mod_cast this
    have hxpos : (0 : ℚ) < (10 ^ 9 : ℚ) / (f : ℚ) := by positivity
    have hple : (8000 : ℚ) ≤ (10 ^ 9 : ℚ) / (f : ℚ) := by
      rw [le_div_iff₀ hfpos]
      have : (f : ℚ) ≤ 125000 := by exact_mod_cast h2
      nlinarith
    have hp8000 : (8000 : ℤ) ≤ ⌊(10 ^ 9 : ℚ) / (f : ℚ)⌋ := by
      rw [Int.le_floor]; exact_mod_cast hple
    have hppos : (0 : ℤ) < ⌊(10 ^ 9 : ℚ) / (f : ℚ)⌋ := by omega
    have hpposQ : (0 : ℚ) < (⌊(10 ^ 9 : ℚ) / (f : ℚ)⌋ : ℚ) := by exact_mod_cast hppos
    refine ⟨?_, ?_, ?_, ?_⟩
    · simp only [Helios.frequency_to_period_ns, Helios.intTrunc,
        if_neg (not_le.mpr hfpos), if_neg (not_lt.mpr hxpos.le)]
    · simp only [Helios.period_ns_to_frequency, if_neg (not_le.mpr hppos)]
    · rw [le_div_iff₀ hpposQ]
      have hfl : (⌊(10 ^ 9 : ℚ) / (f : ℚ)⌋ : ℚ) ≤ (10 ^ 9 : ℚ) / (f : ℚ) :=
        Int.floor_le _
      calc (f : ℚ) * (⌊(10 ^ 9 : ℚ) / (f : ℚ)⌋ : ℚ)
          ≤ (f : ℚ) * ((10 ^ 9 : ℚ) / (f : ℚ)) :=
            mul_le_mul_of_nonneg_left hfl hfpos.le
        _ = 10 ^ 9 := by field_simp
    · have hcancel :
          (10 ^ 9 : ℚ) / ((10 ^ 9 : ℚ) / (⌊(10 ^ 9 : ℚ) / (f : ℚ)⌋ : ℚ)) =
            (⌊(10 ^ 9 : ℚ) / (f : ℚ)⌋ : ℚ) := by
        field_simp
      rw [hcancel]
      have := Int.sub_one_lt_floor ((10 ^ 9 : ℚ) / (f : ℚ))
      linarith
  · intro q hq
    simp only [Helios.frequency_to_period_ns, if_pos hq]
  · intro n hn
    simp only [Helios.period_ns_to_frequency, if_pos hn]

/-- C3 witness: the conversions at `f = 50000` Hz: period `20000` ns, and
the round trip recovers exactly `50000` Hz. -/
theorem C3_frequency_period_conversion_witness :
    Helios.frequency_to_period_ns ((50000 : ℕ) : ℚ) = .ok 20000 ∧
    Helios.period_ns_to_frequency 20000 = .ok 50000 := by
  have h := C3_frequency_period_conversion.1 50000 (by norm_num) (by norm_num)
  have hfl : ⌊(10 ^ 9 : ℚ) / ((50000 : ℕ) : ℚ)⌋ = 20000 := by
    rw [Int.floor_eq_iff]
    norm_num
  have h1 := h.1
  have h2 := h.2.1
  rw [hfl] at h1 h2
  refine ⟨h1, ?_⟩
  rw [h2]
  norm_num

/-- If no attempt in the window observes a matching response, the Helios
set-and-verify loop returns failure. -/
theorem set_and_verify_never_matches (env : Helios.SVEnv)
    (sc qc e : String) :
    ∀ k i, (∀ j, i ≤ j → j < i + k → Helios.respMatches (env j).2 e = false) →
      (Helios.set_and_verify env sc qc e k i).1 = false := by
  intro k
  induction k with
  | zero => intro i _; rfl
  | succ n ih =>
    intro i h
    rcases henv : env i with ⟨sendOk, response⟩
    have hm : Helios.respMatches response e = false := by
      have := h i (le_refl i) (by omega)
      rw [henv] at this
      exact this
    simp only [Helios.set_and_verify, henv, hm]
    cases sendOk
    · simpa using ih (i + 1) (fun j hj1 hj2 => h j (by omega) (by omega))
    · simpa using ih (i + 1) (fun j hj1 hj2 => h j (by omega) (by omega))

/-- The Helios set-and-verify loop only reads the observations of the
attempts inside its window: it performs at most `k` attempts. -/
theorem set_and_verify_window (env env' : Helios.SVEnv) (sc qc e : String) :
    ∀ k i, (∀ j, i ≤ j → j < i + k → env j = env' j) →
      Helios.set_and_verify env sc qc e k i =
        Helios.set_and_verify env' sc qc e k i := by
  intro k
  induction k with
  | zero => intro i _; rfl
  | succ n ih =>
    intro i h
    have henv : env i = env' i := h i (le_refl i) (by omega)
    rcases he : env' i with ⟨sendOk, response⟩
    rw [he] at henv
    have ihh := ih (i + 1) (fun j hj1 hj2 => h j (by omega) (by omega))
    simp only [Helios.set_and_verify, henv, he, ihh]

/-- If no attempt in the window observes the requested enable state, the
BBD203 enable set-and-verify loop returns failure. -/
theorem set_and_verify_enable_never_matches (env : BBD203.EnableEnv)
    (enable : Bool) :
    ∀ k i, (∀ j, i ≤ j → j < i + k → (env j).2 ≠ enable) →
      BBD203.set_and_verify_enable env enable k i = false := by
  intro k
  induction k with
  | zero => intro i _; rfl
  | succ n ih =>
    intro i h
    rcases henv : env i with ⟨sendOk, observed⟩
    have hm : observed ≠ enable := by
      have := h i (le_refl i) (by omega)
      rw [henv] at this
      exact this
    have hbeq : (observed == enable) = false := by
      cases observed <;> cases enable <;> simp_all
    simp only [BBD203.set_and_verify_enable, henv, hbeq, Bool.and_false,
      Bool.false_eq_true, if_false]
    exact ih (i + 1) (fun j hj1 hj2 => h j (by omega) (by omega))

/-- The BBD203 enable set-and-verify loop only reads the observations of
the attempts inside its window. -/
theorem set_and_verify_enable_window (env env' : BBD203.EnableEnv)
    (enable : Bool) :
    ∀ k i, (∀ j, i ≤ j → j < i + k → env j = env' j) →
      BBD203.set_and_verify_enable env enable k i =
        BBD203.set_and_verify_enable env' enable k i := by
  intro k
  induction k with
  | zero => intro i _; rfl
  | succ n ih =>
    intro i h
    have henv : env i = env' i := h i (le_refl i) (by omega)
    rcases he : env' i with ⟨sendOk, observed⟩
    rw [he] at henv
    have ihh := ih (i + 1) (fun j hj1 hj2 => h j (by omega) (by omega))
    simp only [BBD203.set_and_verify_enable, henv, he, ihh]

/-- C6: both set-and-verify patterns (the laser's
`HeliosDriver._set_and_verify`, called with `retries = 3`, and the
motor's `BBD203Driver._set_and_verify_enable`, called with
`retries = 3`) perform at most 3 set/query attempts — their outcome
depends only on the observations of attempts 0, 1 and 2 — and when the
queried value never equals the expected value they terminate
deterministically with failure. -/
theorem C6_set_and_verify_bounded :
    (∀ (env : Helios.SVEnv) (sc qc e : String),
      (∀ j, j < 3 → Helios.respMatches (env j).2 e = false) →
      (Helios.set_and_verify env sc qc e 3 0).1 = false) ∧
    (∀ (env env' : Helios.SVEnv) (sc qc e : String),
      (∀ j, j < 3 → env j = env' j) →
      Helios.set_and_verify env sc qc e 3 0 =
        Helios.set_and_verify env' sc qc e 3 0) ∧
    (∀ (env : BBD203.EnableEnv) (enable : Bool),
      (∀ j, j < 3 → (env j).2 ≠ enable) →
      BBD203.set_and_verify_enable env enable 3 0 = false) ∧
    (∀ (env env' : BBD203.EnableEnv) (enable : Bool),
      (∀ j, j < 3 → env j = env' j) →
      BBD203.set_and_verify_enable env enable 3 0 =
        BBD203.set_and_verify_enable env' enable 3 0) := by
  refine ⟨?_, ?_, ?_, ?_⟩
  · intro env sc qc e h
    exact set_and_verify_never_matches env sc qc e 3 0
      (fun j _ hj => h j (by omega))
  · intro env env' sc qc e h
    exact set_and_verify_window env env' sc qc e 3 0
      (fun j _ hj => h j (by omega))
  · intro env enable h
    exact set_and_verify_enable_never_matches env enable 3 0
      (fun j _ hj => h j (by omega))
  · intro env env' enable h
    exact set_and_verify_enable_window env env' enable 3 0
      (fun j _ hj => h j (by omega))

/-- C6 witness: a laser set-and-verify whose query always answers `"0"`
against expected `"1"` fails, and a motor enable set-and-verify that
always observes `enabled = false` against requested `true` fails. -/
theorem C6_set_and_verify_bounded_witness :
    (Helios.set_and_verify (fun _ => (true, some "0")) "LDO 1\r" "LDO\r" "1"
      3 0).1 = false ∧
    BBD203.set_and_verify_enable (fun _ => (true, false)) true 3 0 = false := by
  constructor
  · apply C6_set_and_verify_bounded.1
    intro j _
    show Helios.respMatches (some "0") "1" = false
    decide
  · apply C6_set_and_verify_bounded.2.2.1
    intro j _
    show false ≠ true
    decide

/-- C7: a requested frequency whose (truncated) period falls outside
`8000..60000` ns makes `cmd_set_frequency_hz` fail before any command
bytes are produced, and the driver's `set_frequency_hz` then returns
failure, writes nothing to the transport and leaves the cached state
unchanged; likewise a requested current outside `0..7000` mA for
`cmd_set_current_ma` / `set_current_ma`. -/
theorem C7_out_of_range_rejected_before_send :
    (∀ freq : ℚ, 0 < freq →
      (⌊(10 ^ 9 : ℚ) / freq⌋ < 8000 ∨ 60000 < ⌊(10 ^ 9 : ℚ) / freq⌋) →
      Helios.cmd_set_frequency_hz freq =
        .error "Frequency results in period outside valid range" ∧
      ∀ (env : Helios.SVEnv) (st : Helios.LaserState),
        Helios.set_frequency_hz env st freq = (false, st, [])) ∧
    (∀ current : ℚ, (current < 0 ∨ 7000 < current) →
      Helios.cmd_set_current_ma current = .error "Current outside valid range" ∧
      ∀ (env : Helios.SVEnv) (st : Helios.LaserState),
        Helios.set_current_ma env st current = (false, st, [])) := by
  constructor
  · intro freq hpos hout
    have hne : ¬ freq ≤ 0 := not_le.mpr hpos
    have hxpos : (0 : ℚ) < (10 ^ 9 : ℚ) / freq := by positivity
    have hp : Helios.frequency_to_period_ns freq = .ok ⌊(10 ^ 9 : ℚ) / freq⌋ := by
      simp only [Helios.frequency_to_period_ns, Helios.intTrunc, if_neg hne,
        if_neg (not_lt.mpr hxpos.le)]
    have hcond : ¬(8000 ≤ ⌊(10 ^ 9 : ℚ) / freq⌋ ∧
        ⌊(10 ^ 9 : ℚ) / freq⌋ ≤ 60000) := by omega
    have hcmd : Helios.cmd_set_frequency_hz freq =
        .error "Frequency results in period outside valid range" := by
      simp only [Helios.cmd_set_frequency_hz, hp, Bind.bind, Except.bind,
        if_neg hcond]
    refine ⟨hcmd, ?_⟩
    intro env st
    simp only [Helios.set_frequency_hz, hcmd, hp]
  · intro current hout
    have hcond : ¬(0 ≤ current ∧ current ≤ 7000) := by
      rcases hout with h | h
      · exact fun hc => absurd hc.1 (not_le.mpr h)
      · exact fun hc => absurd hc.2 (not_le.mpr h)
    have hcmd : Helios.cmd_set_current_ma current =
        .error "Current outside valid range" := by
      simp only [Helios.cmd_set_current_ma, if_neg hcond]
    refine ⟨hcmd, ?_⟩
    intro env st
    simp only [Helios.set_current_ma, hcmd]

/-- C7 witness: a 1 MHz request (period 1000 ns, below range) and an
8000 mA request are rejected with no transport writes and no state
change. -/
theorem C7_out_of_range_rejected_before_send_witness :
    Helios.set_frequency_hz (fun _ => (true, none)) Helios.initLaserState
      1000000 = (false, Helios.initLaserState, []) ∧
    Helios.set_current_ma (fun _ => (true, none)) Helios.initLaserState
      8000 = (false, Helios.initLaserState, []) := by
  have hfl : ⌊(10 ^ 9 : ℚ) / 1000000⌋ = 1000 := by
    norm_num
  constructor
  · exact (C7_out_of_range_rejected_before_send.1 1000000 (by norm_num)
      (by rw [hfl]; left; norm_num)).2 (fun _ => (true, none))
      Helios.initLaserState
  · exact (C7_out_of_range_rejected_before_send.2 8000
      (by right; norm_num)).2 (fun _ => (true, none)) Helios.initLaserState

/-- C8: when a set-and-verify driver operation fails (laser enable, pulse
mode, frequency, current), the cached device-state field for that setting
is left unchanged — the attempted value is cached only on verified
success. -/
theorem C8_failed_verify_leaves_state :
    (∀ (env : Helios.SVEnv) (st : Helios.LaserState) (enabled : Bool),
      (Helios.set_laser_enable env st enabled).1 = false →
      (Helios.set_laser_enable env st enabled).2.1 = st) ∧
    (∀ (env : Helios.SVEnv) (st : Helios.LaserState) (mode : ℕ)
      (r : Bool × Helios.LaserState × List String),
      Helios.set_pulse_mode env st mode = .ok r → r.1 = false →
      r.2.1 = st) ∧
    (∀ (env : Helios.SVEnv) (st : Helios.LaserState) (freq : ℚ),
      (Helios.set_frequency_hz env st freq).1 = false →
      (Helios.set_frequency_hz env st freq).2.1 = st) ∧
    (∀ (env : Helios.SVEnv) (st : Helios.LaserState) (current : ℚ),
      (Helios.set_current_ma env st current).1 = false →
      (Helios.set_current_ma env st current).2.1 = st) := by
  refine ⟨?_, ?_, ?_, ?_⟩
  · intro env st enabled
    simp only [Helios.set_laser_enable]
    split <;> split <;> simp
  · intro env st mode r hok hfalse
    rcases hc : Helios.cmd_set_pulse_mode mode with e | cmd <;>
      rw [Helios.set_pulse_mode, hc] at hok <;>
      simp only [Bind.bind, Except.bind] at hok
    · simp at hok
    · split at hok <;>
        simp only [pure, Except.pure, Except.ok.injEq] at hok <;>
        rw [← hok] at hfalse ⊢
      simp at hfalse
  · intro env st freq
    rcases hc : Helios.cmd_set_frequency_hz freq with e | cmd <;>
      rcases hp : Helios.frequency_to_period_ns freq with e2 | p <;>
      simp only [Helios.set_frequency_hz, hc, hp]
    · simp
    · simp
    · simp
    · split <;> simp
  · intro env st current
    rcases hc : Helios.cmd_set_current_ma current with e | cmd <;>
      simp only [Helios.set_current_ma, hc]
    · simp
    · split <;> simp

/-- C8 witness: with an environment in which every write fails, enabling
the laser fails and the cached state is unchanged. -/
theorem C8_failed_verify_leaves_state_witness :
    (Helios.set_laser_enable (fun _ => (false, none)) Helios.initLaserState
      true).2.1 = Helios.initLaserState :=
  C8_failed_verify_leaves_state.1 (fun _ => (false, none))
    Helios.initLaserState true rfl

/-- C9: for every channel 1..3 whose state is not ready, `move_absolute`
and `move_relative` return failure, write nothing to the transport and
leave the channel map unchanged; and a move command is handed to the
transport only for a ready channel. -/
theorem C9_move_requires_ready :
    (∀ (send_ok : Bool) (enc_cnt : ℕ) (chs : ℕ → BBD203.Channel)
      (channel : ℕ) (pos dist : ℚ),
      (channel = 1 ∨ channel = 2 ∨ channel = 3) →
      (chs channel).is_ready = false →
      BBD203.move_absolute send_ok enc_cnt chs channel pos =
        (false, chs, []) ∧
      BBD203.move_relative send_ok enc_cnt chs channel dist =
        (false, chs, [])) ∧
    (∀ (send_ok : Bool) (enc_cnt : ℕ) (chs : ℕ → BBD203.Channel)
      (channel : ℕ) (pos : ℚ),
      (BBD203.move_absolute send_ok enc_cnt chs channel pos).2.2 ≠ [] →
      (chs channel).is_ready = true) ∧
    (∀ (send_ok : Bool) (enc_cnt : ℕ) (chs : ℕ → BBD203.Channel)
      (channel : ℕ) (dist : ℚ),
      (BBD203.move_relative send_ok enc_cnt chs channel dist).2.2 ≠ [] →
      (chs channel).is_ready = true) := by
  refine ⟨?_, ?_, ?_⟩
  · intro send_ok enc_cnt chs channel pos dist hch hready
    constructor
    · simp only [BBD203.move_absolute, if_pos hch, hready]
      simp
    · simp only [BBD203.move_relative, if_pos hch, hready]
      simp
  · intro send_ok enc_cnt chs channel pos hw
    by_cases hch : channel = 1 ∨ channel = 2 ∨ channel = 3
    · by_cases hready : (chs channel).is_ready = true
      · exact hready
      · exfalso
        apply hw
        have hf : (chs channel).is_ready = false := by
          simpa using hready
        simp [BBD203.move_absolute, if_pos hch, hf]
    · exfalso
      apply hw
      simp [BBD203.move_absolute, if_neg hch]
  · intro send_ok enc_cnt chs channel dist hw
    by_cases hch : channel = 1 ∨ channel = 2 ∨ channel = 3
    · by_cases hready : (chs channel).is_ready = true
      · exact hready
      · exfalso
        apply hw
        have hf : (chs channel).is_ready = false := by
          simpa using hready
        simp [BBD203.move_relative, if_pos hch, hf]
    · exfalso
      apply hw
      simp [BBD203.move_relative, if_neg hch]

/-- C9 witness: on freshly constructed channels (not homed, not enabled)
a move of channel 1 to 10 mm fails without any transport write or state
change. -/
theorem C9_move_requires_ready_witness :
    BBD203.move_absolute true 20000 (fun n => BBD203.initChannel n) 1 10 =
      (false, fun n => BBD203.initChannel n, []) ∧
    BBD203.move_relative true 20000 (fun n => BBD203.initChannel n) 1 10 =
      (false, fun n => BBD203.initChannel n, []) :=
  C9_move_requires_ready.1 true 20000 (fun n => BBD203.initChannel n) 1 10 10
    (Or.inl rfl) rfl

/-- C10: `restore_factory_settings` returns failure and writes nothing
whenever the cached laser-enabled flag is true; the `HPR` command is
handed to the transport only while the cached state records the laser as
disabled. -/
theorem C10_factory_restore_requires_disabled :
    (∀ (send_ok : Bool) (st : Helios.LaserState), st.laser_enabled = true →
      Helios.restore_factory_settings send_ok st = (false, [])) ∧
    (∀ (send_ok : Bool) (st : Helios.LaserState),
      (Helios.restore_factory_settings send_ok st).2 ≠ [] →
      st.laser_enabled = false) := by
  constructor
  · intro send_ok st h
    simp [Helios.restore_factory_settings, h]
  · intro send_ok st hw
    by_cases h : st.laser_enabled = true
    · exfalso
      apply hw
      simp [Helios.restore_factory_settings, h]
    · exact Bool.not_eq_true _ ▸ h

/-- C10 witness: with the cached state recording the laser as enabled, a
factory-restore request fails and nothing is written. -/
theorem C10_factory_restore_requires_disabled_witness :
    Helios.restore_factory_settings true
      { Helios.initLaserState with laser_enabled := true } = (false, []) :=
  C10_factory_restore_requires_disabled.1 true
    { Helios.initLaserState with laser_enabled := true } rfl

/-- `getD` of a `take` below the cut agrees with the original list. -/
theorem getD_take_of_lt (l : List ℕ) (k i : ℕ) (h : i < k) :
    (l.take k).getD i 0 = l.getD i 0 := by
  simp [List.getD_eq_getElem?_getD, List.getElem?_take, h]

/-- The extraction loop returns nothing on an empty buffer. -/
theorem extractLoopAux_nil (fuel : ℕ) :
    BBD203.extractLoopAux fuel [] = ([], []) := by
  cases fuel <;> rfl

/-- The extraction loop consumes nothing from a strict prefix of a
well-framed message: with fewer bytes buffered than the message requires
the pump waits for more input. -/
theorem extractLoopAux_of_strict_pre (m : List ℕ) (hwf : BBD203.WellFramed m)
    (fuel k : ℕ) (hk : k < m.length) (buf : List ℕ) (hbuf : buf = m.take k) :
    BBD203.extractLoopAux fuel buf = ([], buf) := by
  subst hbuf
  have hlen : (m.take k).length = k := by
    rw [List.length_take]
    omega
  cases fuel with
  | zero => rfl
  | succ n =>
    by_cases h6 : k < 6
    · have hph : BBD203.parse_header (m.take k) = none := by
        simp [BBD203.parse_header, hlen, h6]
      simp [BBD203.extractLoopAux, hph]
    · have h2 : (m.take k).getD 2 0 = m.getD 2 0 :=
        getD_take_of_lt m k 2 (by omega)
      have h3 : (m.take k).getD 3 0 = m.getD 3 0 :=
        getD_take_of_lt m k 3 (by omega)
      have hph : BBD203.parse_header (m.take k) =
          some ((m.take k).getD 0 0 + 256 * (m.take k).getD 1 0,
                m.getD 2 0 + 256 * m.getD 3 0,
                (m.take k).getD 4 0, (m.take k).getD 5 0) := by
        rw [BBD203.parse_header, if_neg (by omega : ¬ (m.take k).length < 6),
          h2, h3]
      have hcond : (m.take k).length <
          BBD203.msgLenOfHeader (m.getD 2 0 + 256 * m.getD 3 0) := by
        rw [hlen, ← hwf.2]
        exact hk
      simp only [BBD203.extractLoopAux, hph]
      rw [if_pos hcond]

/-- The extraction loop extracts a complete well-framed message exactly
once and leaves an empty buffer. -/
theorem extractLoopAux_complete (m : List ℕ) (hwf : BBD203.WellFramed m)
    (fuel : ℕ) (hf : 1 ≤ fuel) :
    BBD203.extractLoopAux fuel m = ([m], []) := by
  obtain ⟨n, rfl⟩ : ∃ n, fuel = n + 1 := ⟨fuel - 1, by omega⟩
  have h6 : ¬ m.length < 6 := by
    have := hwf.1
    omega
  have hph : BBD203.parse_header m =
      some (m.getD 0 0 + 256 * m.getD 1 0, m.getD 2 0 + 256 * m.getD 3 0,
            m.getD 4 0, m.getD 5 0) := by
    rw [BBD203.parse_header, if_neg h6]
  simp only [BBD203.extractLoopAux, hph]
  rw [if_neg (by rw [← hwf.2]; omega), ← hwf.2, List.take_length,
    List.drop_length, extractLoopAux_nil]

/-- Feeding only empty chunks to an empty buffer dispatches nothing. -/
theorem feedChunks_join_nil :
    ∀ cs : List (List ℕ), cs.flatten = [] → BBD203.feedChunks cs [] = ([], []) := by
  intro cs
  induction cs with
  | nil => intro _; rfl
  | cons c cs' ih =>
    intro h
    simp only [List.flatten_cons, List.append_eq_nil] at h
    obtain ⟨rfl, h2⟩ := h
    have hext : BBD203.extractLoop [] = ([], []) := rfl
    simp [BBD203.feedChunks, hext, ih h2]

/-- Chunked feeding of a well-framed message: starting from a buffer that
is a strict prefix of the message, feeding the remaining chunks dispatches
the message exactly once and leaves an empty buffer. -/
theorem feedChunks_partition (m : List ℕ) (hwf : BBD203.WellFramed m) :
    ∀ (cs : List (List ℕ)) (buf : List ℕ), buf ++ cs.flatten = m →
      buf.length < m.length → BBD203.feedChunks cs buf = ([m], []) := by
  intro cs
  induction cs with
  | nil =>
    intro buf h hlt
    simp only [List.flatten_nil, List.append_nil] at h
    subst h
    omega
  | cons c cs' ih =>
    intro buf h hlt
    have hjoin : (buf ++ c) ++ cs'.flatten = m := by
      simpa [List.append_assoc] using h
    have hlen : (buf ++ c).length ≤ m.length := by
      rw [← hjoin]
      simp
    have htake : m.take (buf ++ c).length = buf ++ c := by
      rw [← hjoin, List.take_left]
    rcases lt_or_eq_of_le hlen with hlt2 | heq
    · have hext : BBD203.extractLoop (buf ++ c) = ([], buf ++ c) :=
        extractLoopAux_of_strict_pre m hwf _ _ hlt2 (buf ++ c) htake.symm
      simp [BBD203.feedChunks, hext, ih (buf ++ c) hjoin hlt2]
    · have hbc : buf ++ c = m := by
        have hb := htake
        rw [heq, List.take_length] at hb
        exact hb.symm
      have hcs' : cs'.flatten = [] := by
        rw [hbc] at hjoin
        have hl := congrArg List.length hjoin
        rw [List.length_append] at hl
        have : cs'.flatten.length = 0 := by omega
        exact List.eq_nil_of_length_eq_zero this
      have hext : BBD203.extractLoop (buf ++ c) = ([m], []) := by
        rw [BBD203.extractLoop, hbc]
        exact extractLoopAux_complete m hwf m.length (by have := hwf.1; omega)
      simp [BBD203.feedChunks, hext, feedChunks_join_nil cs' hcs']

/-- C1 counterexample: `build_header_only 0x0464 1 0 0x50 0x01` is a
complete 6-byte header-only message (parameters `(1, 0)`), yet feeding it
whole to the pump dispatches no message at all: its combined length field
reads 1, so the pump classifies it as data-bearing and waits forever for
a 7th byte. -/
theorem C1_header_only_params_stall :
    BBD203.feed [BBD203.build_header_only 0x0464 1 0 0x50 0x01] =
      ([], BBD203.build_header_only 0x0464 1 0 0x50 0x01) := by
  rfl

/-- C1 (amended): for every complete binary APT message that the length
heuristic frames — a header-only message whose two parameter bytes read
as a little-endian 16-bit value are 0 or exceed 255, or a data-bearing
message with declared payload length 1..255 — feeding its bytes to the
pump in arbitrary chunks (including one byte at a time, and including
whole) dispatches exactly one message, identical to the message, leaving
an empty buffer; and on any strict prefix the pump consumes nothing. -/
theorem C1_split_tolerant_framing (m : List ℕ)
    (hm : (∃ msg_id p1 p2 dest src, p1 < 256 ∧ p2 < 256 ∧
            (p1 + 256 * p2 = 0 ∨ 255 < p1 + 256 * p2) ∧
            m = BBD203.build_header_only msg_id p1 p2 dest src) ∨
          (∃ msg_id dest data src, 1 ≤ data.length ∧ data.length ≤ 255 ∧
            m = BBD203.build_with_data msg_id dest data src)) :
    (∀ chunks : List (List ℕ), chunks.flatten = m →
      BBD203.feed chunks = ([m], [])) ∧
    (∀ k, k < m.length → BBD203.extractLoop (m.take k) = ([], m.take k)) := by
  have hwf : BBD203.WellFramed m := by
    rcases hm with ⟨msg_id, p1, p2, dest, src, hp1, hp2, hcase, rfl⟩ |
      ⟨msg_id, dest, data, src, h1, h255, rfl⟩
    · constructor
      · simp [BBD203.build_header_only]
      · have e2 : (BBD203.build_header_only msg_id p1 p2 dest src).getD 2 0
            = p1 := by
          simp [BBD203.build_header_only, Nat.mod_eq_of_lt hp1]
        have e3 : (BBD203.build_header_only msg_id p1 p2 dest src).getD 3 0
            = p2 := by
          simp [BBD203.build_header_only, Nat.mod_eq_of_lt hp2]
        rw [e2, e3, BBD203.msgLenOfHeader, if_pos hcase]
        simp [BBD203.build_header_only]
    · constructor
      · simp [BBD203.build_with_data]
      · have e2 : (BBD203.build_with_data msg_id dest data src).getD 2 0
            = data.length := by
          simp [BBD203.build_with_data, Nat.mod_eq_of_lt (by omega :
            data.length < 256)]
        have e3 : (BBD203.build_with_data msg_id dest data src).getD 3 0
            = 0 := by
          simp [BBD203.build_with_data, Nat.div_eq_of_lt (by omega :
            data.length < 256)]
        rw [e2, e3, BBD203.msgLenOfHeader,
          if_neg (by omega : ¬ (data.length + 256 * 0 = 0 ∨
            255 < data.length + 256 * 0))]
        simp [BBD203.build_with_data]
        omega
  constructor
  · intro chunks hj
    exact feedChunks_partition m hwf chunks []
      (by simpa using hj) (by have := hwf.1; simp; omega)
  · intro k hk
    exact extractLoopAux_of_strict_pre m hwf _ k hk (m.take k) rfl

/-- C1 witness: the 6-byte header-only homed message
`build_header_only 0x0444 0 0 0x21 0x50` fed one byte at a time is
dispatched exactly once, identically to feeding it whole. -/
theorem C1_split_tolerant_framing_witness :
    BBD203.feed [[0x44], [0x04], [0x00], [0x00], [0x21], [0x50]] =
      ([BBD203.build_header_only 0x0444 0 0 0x21 0x50], []) :=
  (C1_split_tolerant_framing (BBD203.build_header_only 0x0444 0 0 0x21 0x50)
    (Or.inl ⟨0x0444, 0, 0, 0x21, 0x50, by norm_num, by norm_num,
      Or.inl rfl, rfl⟩)).1
    [[0x44], [0x04], [0x00], [0x00], [0x21], [0x50]] (by rfl)

/-- C2 evaluated at the failing input: a `MOVE_COMPLETED` message for
channel 1 (destination byte `0x21`) with two registered callbacks, the
first of which raises.  The model of `_process_message` invokes only the
first callback — the exception aborts the loop before the second runs —
whereas the claim requires both `(0, 1)` and `(1, 1)` invocations. -/
theorem C2_callback_exception_aborts_loop :
    (BBD203.processMoveCompleted (fun _ => [true, false])
      (fun n => BBD203.initChannel n) 0x21).2 = [(0, 1)] ∧
    ((1, 1) ∉ (BBD203.processMoveCompleted (fun _ => [true, false])
      (fun n => BBD203.initChannel n) 0x21).2) := by
  constructor
  · rfl
  · decide
